import Mathlib

/-!
Verification development for the titan property-grammar engine
(`src/titan/props.py`): typed, bidirectional SQL-clause descriptors.

Shallow embedding conventions:
* Python strings are Lean `String`; Python `str.upper`/`str.lower` are
  `strUpper`/`strLower` below.
* The pyparsing grammars are modelled at token level: an input string is
  split by `tokenize` into word tokens and the single-character separator
  tokens `(`,`)`,`,`,`=`; each descriptor's compiled grammar becomes a
  deterministic prefix-consuming function on token lists.
* Fallible Python code (exceptions) returns `Except PErr`.
-/

namespace Titan

/-! ## Python string primitives (model) -/

def strUpper (s : String) : String := ⟨s.data.map Char.toUpper⟩

def strLower (s : String) : String := ⟨s.data.map Char.toLower⟩

def caselessEq (a b : String) : Bool := strLower a == strLower b

/-- Python `sep.join(xs)`. -/
def joinSep (sep : String) : List String → String
  | [] => ""
  | [x] => x
  | x :: xs => x ++ sep ++ joinSep sep xs

/-- Modelled from the spec: the text formatter `tidy_sql` (defined in
`titan/builder.py`, which is not under `src/`) "joins non-empty rendered
fragments with normalized whitespace" (spec section 2, component 5). -/
def tidy_sql (fragments : List String) : String :=
  joinSep " " (fragments.filter (fun f => !(f == "")))

/-- The `"=" if self.eq else ""` fragment used by several renders. -/
def eqSym (eq : Bool) : String := if eq then "=" else ""

/-! ## Lexical layer (modelled from the spec)

The lexical primitives (`Keyword`, `Keywords`, `EQUALS`, `ANY`,
`_in_parens`, delimited lists) live in `titan/parse.py`, which is not under
`src/`. They are modelled from the spec (section 6): case-insensitive
keyword and keyword-sequence matchers, a generic equals operator, a
wildcard "any token" matcher, and a parenthesized-group wrapper. A token
is a maximal run of non-separator, non-whitespace characters (so a
single-quoted literal such as `'prod'` is one token, quotes included: per
spec section 4.2 the captured text keeps its quotes), and each of
`(` `)` `,` `=` is its own token. -/

def isWs (c : Char) : Bool := c == ' ' || c == '\n' || c == '\t' || c == '\r'

def isSep (c : Char) : Bool := c == '(' || c == ')' || c == ',' || c == '='

def tokChar (c : Char) : Bool := !isWs c && !isSep c

def tokA : List Char → List Char → List String
  | [], acc => if acc.isEmpty then [] else [⟨acc.reverse⟩]
  | c :: cs, acc =>
    if isWs c then
      if acc.isEmpty then tokA cs [] else ⟨acc.reverse⟩ :: tokA cs []
    else if isSep c then
      if acc.isEmpty then ⟨[c]⟩ :: tokA cs []
      else ⟨acc.reverse⟩ :: ⟨[c]⟩ :: tokA cs []
    else tokA cs (c :: acc)

def tokenize (s : String) : List String := tokA s.data []

/-- A multi-word keyword label is matched word by word (`Keywords`). -/
def splitWords (s : String) : List String := tokenize s

def isSepTok (t : String) : Bool := t == "(" || t == ")" || t == "," || t == "="

/-- The wildcard `ANY()` token matcher: consumes one non-separator token. -/
def anyTok : List String → Option (String × List String)
  | t :: ts => if isSepTok t then none else some (t, ts)
  | [] => none

/-- `Keywords(label)`: match a sequence of keywords case-insensitively. -/
def matchKeywords : List String → List String → Option (List String)
  | [], ts => some ts
  | _ :: _, [] => none
  | w :: ws, t :: ts => if caselessEq w t then matchKeywords ws ts else none

/-- `pp.Opt(Keyword(tok))`: consume one token if it matches, else no-op. -/
def matchOptKeyword (w : String) (ts : List String) : List String :=
  match ts with
  | t :: rest => if caselessEq w t then rest else t :: rest
  | [] => []

def matchConsume (ws : List String) (ts : List String) : List String :=
  ws.foldl (fun acc w => matchOptKeyword w acc) ts

/-! ## Descriptor grammar assembly (`Prop.__init__` / `Prop.parse`)

`Prop.__init__` assembles, in order: the optional consumed filler
keywords, the label keywords, the consumed filler keywords again, the
equals sign (when `eq`), and the value sub-grammar (wrapped in parentheses
when `parens`). `Prop.parse` calls `parse_string` without requiring the
whole input to be consumed, extracts the `prop_value` capture and hands it
to the kind-specific `typecheck`. `alt_tokens` is stored by the source but
never wired into the grammar, so it does not appear here. -/

structure PropCfg where
  label : Option String
  eq : Bool
  parens : Bool
  consume : List String

/-- The suppressed `EQUALS()` literal: consume one `=` token. -/
def matchEq : List String → Option (List String)
  | t :: r => if t == "=" then some r else none
  | [] => none

/-- Match everything of a descriptor's grammar that precedes the value. -/
def matchHead (cfg : PropCfg) (ts : List String) : Option (List String) :=
  let ts1 := matchConsume cfg.consume ts
  match (match cfg.label with
         | some l => matchKeywords (splitWords l) ts1
         | none => some ts1) with
  | none => none
  | some ts2 =>
    let ts3 := matchConsume cfg.consume ts2
    if cfg.eq then matchEq ts3 else some ts3

/-- `_in_parens`: wrap a value grammar in suppressed parentheses. -/
def withParens (parens : Bool) (p : List String → Option (α × List String))
    (ts : List String) : Option (α × List String) :=
  if parens then
    match ts with
    | "(" :: ts1 =>
      match p ts1 with
      | some (a, ")" :: rest) => some (a, rest)
      | _ => none
    | _ => none
  else p ts

/-- Continuation of `pp.DelimitedList`: repeatedly consume `, element`,
backtracking (leaving the comma unconsumed) when the element fails.
The fuel argument bounds the recursion; every element parser used here
consumes at least one token, so `ts.length` fuel is always enough. -/
def delimTail (p : List String → Option (α × List String)) :
    Nat → List α → List String → List α × List String
  | 0, acc, ts => (acc.reverse, ts)
  | fuel + 1, acc, ts =>
    match ts with
    | "," :: ts1 =>
      match p ts1 with
      | some (a, ts2) => delimTail p fuel (a :: acc) ts2
      | none => (acc.reverse, "," :: ts1)
    | _ => (acc.reverse, ts)

/-- `pp.DelimitedList(p)`: one element, then comma-separated repeats. -/
def delimList (p : List String → Option (α × List String))
    (ts : List String) : Option (List α × List String) :=
  match p ts with
  | some (a, ts1) => some (delimTail p ts1.length [a] ts1)
  | none => none

/-! ## Errors

Two permanent error kinds (spec section 7): a grammar mismatch
(pyparsing `ParseException`) and an invalid value (`ValueError`, which
carries the allowed members only when the source's f-string includes
them).  `stopIteration` models the uncaught `StopIteration` escaping
`TagsProp.typecheck` / `DictProp.typecheck` on an odd pair sequence. -/

inductive PErr where
  | grammarMismatch
  | invalidValue (raw : String) (allowed : Option (List String))
  | stopIteration
deriving DecidableEq

/-! ## Enumerations

Modelled from the spec: `titan/enums.py` is not under `src/`. Spec section
3 calls the domain value "a member of a closed enumeration" with a
"serialized form", and the render shapes in section 4.2 show members
formatting as their serialized form, so an enumeration type is modelled as
the list of its members' serialized values, a member as its value string,
and the Python `EnumClass(raw)` by-value constructor as exact lookup among
the members (raising `ValueError` otherwise, without an allowed list). -/

structure EnumType where
  members : List String
deriving DecidableEq

def listHas (l : List String) (a : String) : Bool := l.any (fun x => x == a)

def enumCtor (E : EnumType) (raw : String) : Except PErr String :=
  if listHas E.members raw then .ok raw else .error (.invalidValue raw none)

/-- Python repr of a str-mixin enumeration member, `<Class.NAME: 'value'>`,
with the member name equal to its serialized value and the class name
elided to `Enum` (the concrete enum classes live outside `src/`). -/
def enumMemberRepr (v : String) : String :=
  "<Enum." ++ v ++ ": " ++ "'" ++ v ++ "'" ++ ">"

/-! ## Domain values -/

structure Column where
  name : String
  data_type : String
  comment : Option String
deriving DecidableEq

inductive Value where
  | vbool (b : Bool)
  | vint (n : Int)
  | vstr (s : String)
  | vlist (xs : List String)
  | vdict (kvs : List (String × String))
  | venum (s : String)
  | venums (xs : List String)
  | vcols (cols : List Column)
deriving DecidableEq

/-- Python `str(bool)`. -/
def pyStrBool (b : Bool) : String := if b then "True" else "False"

/-- Python repr of a string. -/
def pyReprStr (s : String) : String := "'" ++ s ++ "'"

/-- Python repr of an optional comment field inside a column dict. -/
def pyReprOptStr : Option String → String
  | none => "None"
  | some s => pyReprStr s

def pyReprCol (c : Column) : String :=
  "\x7b'name': " ++ pyReprStr c.name ++ ", 'data_type': " ++
    enumMemberRepr c.data_type ++
    (match c.comment with
     | none => ""
     | some s => ", 'comment': " ++ pyReprStr s) ++ "\x7d"

/-- Python `str(value)` for the domain values above (used only on the
dynamically-typed code paths; enum members are str-mixin, so `str` of a
member is modelled as its serialized value as well). -/
def pyStr : Value → String
  | .vbool b => pyStrBool b
  | .vint n => toString n
  | .vstr s => s
  | .vlist xs => "[" ++ joinSep ", " (xs.map pyReprStr) ++ "]"
  | .vdict kvs =>
      "\x7b" ++
        joinSep ", " (kvs.map (fun kv => pyReprStr kv.1 ++ ": " ++ pyReprStr kv.2)) ++
      "\x7d"
  | .venum s => s
  | .venums xs => "[" ++ joinSep ", " (xs.map enumMemberRepr) ++ "]"
  | .vcols cs => "[" ++ joinSep ", " (cs.map pyReprCol) ++ "]"

/-- Python truthiness of the domain values above. -/
def pyTruthy : Value → Bool
  | .vbool b => b
  | .vint n => !(n == 0)
  | .vstr s => !(s == "")
  | .vlist xs => !xs.isEmpty
  | .vdict kvs => !kvs.isEmpty
  | .venum _ => true
  | .venums xs => !xs.isEmpty
  | .vcols cs => !cs.isEmpty

/-- Python `int(str)`: optional surrounding whitespace, optional sign,
then decimal digits (digit-group underscores are not modelled; no claim
parses an integer literal containing one). -/
def digitsVal : List Char → Option Nat
  | [] => none
  | cs =>
    if cs.all (fun c => c.isDigit) then
      some (cs.foldl (fun a c => 10 * a + (c.toNat - 48)) 0)
    else none

def pyInt (s : String) : Option Int :=
  let cs := ((s.data.dropWhile isWs).reverse.dropWhile isWs).reverse
  match cs with
  | '+' :: rest => (digitsVal rest).map Int.ofNat
  | '-' :: rest => (digitsVal rest).map (fun n => -(Int.ofNat n))
  | _ => (digitsVal cs).map Int.ofNat

/-- Python `tok.strip(" ")`. -/
def stripSpaces (s : String) : String :=
  ⟨((s.data.dropWhile (fun c => c == ' ')).reverse.dropWhile
      (fun c => c == ' ')).reverse⟩

/-! ## BoolProp -/

def BoolProp.typecheck (prop_value : String) : Except PErr Bool :=
  if strLower prop_value == "true" then .ok true
  else if strLower prop_value == "false" then .ok false
  else .error (.invalidValue prop_value none)

def BoolProp.render (label : String) (eq : Bool) : Option Bool → String
  | none => ""
  | some value => tidy_sql [strUpper label, eqSym eq, strUpper (pyStrBool value)]

def BoolProp.parseTokens (label : String) (eq : Bool)
    (ts : List String) : Except PErr Bool :=
  match matchHead ⟨some label, eq, false, []⟩ ts with
  | none => .error .grammarMismatch
  | some ts1 =>
    match anyTok ts1 with
    | none => .error .grammarMismatch
    | some (t, _) => BoolProp.typecheck t

def BoolProp.parse (label : String) (eq : Bool) (sql : String) : Except PErr Bool :=
  BoolProp.parseTokens label eq (tokenize sql)

/-! ## IntProp -/

def IntProp.typecheck (prop_value : String) : Except PErr Int :=
  match pyInt prop_value with
  | some n => .ok n
  | none => .error (.invalidValue prop_value none)

def IntProp.render (label : String) (eq : Bool) : Option Int → String
  | none => ""
  | some value => tidy_sql [strUpper label, eqSym eq, toString value]

def IntProp.parseTokens (label : String) (eq : Bool)
    (ts : List String) : Except PErr Int :=
  match matchHead ⟨some label, eq, false, []⟩ ts with
  | none => .error .grammarMismatch
  | some ts1 =>
    match anyTok ts1 with
    | none => .error .grammarMismatch
    | some (t, _) => IntProp.typecheck t

def IntProp.parse (label : String) (eq : Bool) (sql : String) : Except PErr Int :=
  IntProp.parseTokens label eq (tokenize sql)

/-! ## StringProp -/

def StringProp.typecheck (prop_value : String) : Except PErr String :=
  .ok prop_value

def StringProp.render (label : String) (eq : Bool) : Option String → String
  | none => ""
  | some value => tidy_sql [strUpper label, eqSym eq, "'" ++ value ++ "'"]

def StringProp.parseTokens (label : String) (eq : Bool)
    (ts : List String) : Except PErr String :=
  match matchHead ⟨some label, eq, false, []⟩ ts with
  | none => .error .grammarMismatch
  | some ts1 =>
    match anyTok ts1 with
    | none => .error .grammarMismatch
    | some (t, _) => StringProp.typecheck t

def StringProp.parse (label : String) (eq : Bool) (sql : String) : Except PErr String :=
  StringProp.parseTokens label eq (tokenize sql)

/-! ## FlagProp -/

def FlagProp.typecheck : Except PErr Bool := .ok true

/-- `FlagProp.render` tests the truthiness of its argument, so `None` and
`False` both render as the empty fragment. -/
def FlagProp.render (label : String) : Option Bool → String
  | some true => strUpper label
  | _ => ""

def FlagProp.parseTokens (label : String) (ts : List String) : Except PErr Bool :=
  match matchKeywords (splitWords label) ts with
  | some _ => FlagProp.typecheck
  | none => .error .grammarMismatch

def FlagProp.parse (label : String) (sql : String) : Except PErr Bool :=
  FlagProp.parseTokens label (tokenize sql)

/-! ## IdentifierProp (render side; its value grammar uses the
fully-qualified-identifier primitive, which no claim exercises) -/

def IdentifierProp.render (label : String) (eq : Bool) : Option String → String
  | none => ""
  | some value => tidy_sql [strUpper label, eqSym eq, value]

/-! ## StringListProp -/

def StringListProp.typecheck (prop_value : List String) : Except PErr (List String) :=
  .ok (prop_value.map stripSpaces)

def StringListProp.render (label : String) (eq : Bool) : Option (List String) → String
  | none => ""
  | some values =>
    tidy_sql [strUpper label, eqSym eq, "(" ++ joinSep ", " values ++ ")"]

def StringListProp.parseTokens (label : String) (eq parens : Bool)
    (ts : List String) : Except PErr (List String) :=
  match matchHead ⟨some label, eq, parens, []⟩ ts with
  | none => .error .grammarMismatch
  | some ts1 =>
    match withParens parens (delimList anyTok) ts1 with
    | none => .error .grammarMismatch
    | some (toks, _) => StringListProp.typecheck toks

def StringListProp.parse (label : String) (eq parens : Bool)
    (sql : String) : Except PErr (List String) :=
  StringListProp.parseTokens label eq parens (tokenize sql)

/-! ## TagsProp -/

/-- The `ANY() + EQUALS() + ANY()` element of the tag grammar: the equals
sign is suppressed, so the capture is the flat `[key, value]` pair. -/
def kvToks (ts : List String) : Option (List String × List String) :=
  match anyTok ts with
  | some (k, "=" :: ts2) =>
    match anyTok ts2 with
    | some (v, ts3) => some ([k, v], ts3)
    | none => none
  | _ => none

/-- `TagsProp.typecheck` zips the flat alternating key/value capture into
pairs; on an odd-length sequence the `next(pairs)` call raises an uncaught
`StopIteration`. The quote-stripping of values is commented out in the
source, so values keep their quotes. -/
def TagsProp.typecheck : List String → Except PErr (List (String × String))
  | [] => .ok []
  | [_] => .error .stopIteration
  | k :: v :: rest =>
    match TagsProp.typecheck rest with
    | .ok tl => .ok ((k, v) :: tl)
    | .error e => .error e

def TagsProp.render : Option (List (String × String)) → String
  | none => ""
  | some value =>
    "TAG (" ++
      joinSep ", " (value.map (fun kv => kv.1 ++ " = " ++ "'" ++ kv.2 ++ "'")) ++
    ")"

def TagsProp.parseTokens (ts : List String) : Except PErr (List (String × String)) :=
  match matchHead ⟨some "TAG", false, true, ["WITH"]⟩ ts with
  | none => .error .grammarMismatch
  | some ts1 =>
    match withParens true (delimList kvToks) ts1 with
    | none => .error .grammarMismatch
    | some (pairs, _) => TagsProp.typecheck pairs.flatten

def TagsProp.parse (sql : String) : Except PErr (List (String × String)) :=
  TagsProp.parseTokens (tokenize sql)

/-! ## EnumProp -/

/-- `pp.MatchFirst([Keywords(val.value) for val in valid_values])`: the
first allowed value whose keyword sequence matches the input; a caseless
keyword yields its canonical match string, not the input text. -/
def firstKeywordMatch : List String → List String → Option (String × List String)
  | [], _ => none
  | v :: vs, ts =>
    match matchKeywords (splitWords v) ts with
    | some rest => some (v, rest)
    | none => firstKeywordMatch vs ts

/-- The enum value grammar `MatchFirst([...]) | ANY()`. -/
def enumValue (valid : List String) (ts : List String) :
    Option (String × List String) :=
  match firstKeywordMatch valid ts with
  | some r => some r
  | none => anyTok ts

def EnumProp.typecheck (E : EnumType) (valid : List String)
    (prop_value : String) : Except PErr String :=
  match enumCtor E prop_value with
  | .error e => .error e
  | .ok v =>
    if listHas valid v then .ok v
    else .error (.invalidValue v (some valid))

def EnumProp.render (label : String) (eq : Bool) : Option String → String
  | none => ""
  | some value => label ++ (if eq then " = " else " ") ++ value

def EnumProp.parseTokens (label : String) (eq : Bool) (E : EnumType)
    (valid : List String) (ts : List String) : Except PErr String :=
  match matchHead ⟨some label, eq, false, []⟩ ts with
  | none => .error .grammarMismatch
  | some ts1 =>
    match enumValue valid ts1 with
    | none => .error .grammarMismatch
    | some (t, _) => EnumProp.typecheck E valid t

def EnumProp.parse (label : String) (eq : Bool) (E : EnumType)
    (valid : List String) (sql : String) : Except PErr String :=
  EnumProp.parseTokens label eq E valid (tokenize sql)

/-! ## EnumListProp -/

def EnumListProp.typecheckCtor (E : EnumType) :
    List String → Except PErr (List String)
  | [] => .ok []
  | t :: ts =>
    match enumCtor E t with
    | .error e => .error e
    | .ok v =>
      match EnumListProp.typecheckCtor E ts with
      | .ok vs => .ok (v :: vs)
      | .error e => .error e

def EnumListProp.typecheckValid (valid : List String) :
    List String → Except PErr (List String)
  | [] => .ok []
  | v :: vs =>
    if listHas valid v then
      match EnumListProp.typecheckValid valid vs with
      | .ok _ => .ok (v :: vs)
      | .error e => .error e
    else .error (.invalidValue v (some valid))

/-- `EnumListProp.typecheck`: the list comprehension coerces every token
through the enum constructor first, then the loop validates membership. -/
def EnumListProp.typecheck (E : EnumType) (valid : List String)
    (prop_values : List String) : Except PErr (List String) :=
  match EnumListProp.typecheckCtor E prop_values with
  | .error e => .error e
  | .ok vs =>
    match EnumListProp.typecheckValid valid vs with
    | .ok _ => .ok vs
    | .error e => .error e

/-- `EnumListProp.render` interpolates the Python list object itself into
the f-string (`f"...({values})"`), so the output embeds the list repr; the
paren flag is not stored on the descriptor and cannot be consulted. -/
def EnumListProp.render (label : String) (eq : Bool) : Option (List String) → String
  | none => ""
  | some values =>
    if values.isEmpty then ""
    else
      label ++ (if eq then " = " else " ") ++
        "(" ++ "[" ++ joinSep ", " (values.map enumMemberRepr) ++ "]" ++ ")"

def EnumListProp.parseTokens (label : String) (eq parens : Bool) (E : EnumType)
    (valid : List String) (ts : List String) : Except PErr (List String) :=
  match matchHead ⟨some label, eq, parens, []⟩ ts with
  | none => .error .grammarMismatch
  | some ts1 =>
    match withParens parens (delimList (fun ts => (enumValue valid ts).map
        (fun r => (r.1, r.2)))) ts1 with
    | none => .error .grammarMismatch
    | some (toks, _) => EnumListProp.typecheck E valid toks

def EnumListProp.parse (label : String) (eq parens : Bool) (E : EnumType)
    (valid : List String) (sql : String) : Except PErr (List String) :=
  EnumListProp.parseTokens label eq parens E valid (tokenize sql)

/-! ## EnumFlagProp / QueryProp / ExpressionProp / TimeTravelProp /
AlertConditionProp (render side, as needed by the absent-value claim) -/

def EnumFlagProp.render : Option String → String
  | none => ""
  | some value => value

def QueryProp.render (label : String) : Option String → String
  | none => ""
  | some value => label ++ " " ++ value

def ExpressionProp.render (label : String) : Option String → String
  | none => ""
  | some value => label ++ " " ++ value

/-- `TimeTravelProp.render` interpolates the single-entry dict into the
f-string, so a present value embeds the Python dict repr. -/
def TimeTravelProp.render (label : String) : Option (List (String × String)) → String
  | none => ""
  | some value => label ++ " (" ++ pyStr (.vdict value) ++ ")"

def AlertConditionProp.render : Option String → String
  | none => ""
  | some value => "IF(EXISTS( " ++ value ++ " ))"

/-! ## ColumnsProp -/

def colSql (c : Column) : String :=
  c.name ++ " " ++ c.data_type ++
    (match c.comment with
     | some m => if m == "" then "" else " COMMENT " ++ "'" ++ m ++ "'"
     | none => "")

/-- `ColumnsProp.render` returns the literal text `()` — not an empty
fragment — when the value is `None`. -/
def ColumnsProp.render : Option (List Column) → String
  | none => "()"
  | some value => "(" ++ joinSep ", " (value.map colSql) ++ ")"

/-! ## Named property collection (`Props`)

Descriptors of the subclasses above, as a closed variant type for the
collection-level dispatch. -/

inductive PropKind where
  | bool (label : String) (eq : Bool)
  | int (label : String) (eq : Bool)
  | str (label : String) (eq : Bool)
  | flag (label : String)
  | stringList (label : String) (eq : Bool)
  | tags
  | enum (label : String) (eq : Bool) (E : EnumType) (valid : List String)
  | enumList (label : String) (eq : Bool) (E : EnumType) (valid : List String)
  | columns
deriving DecidableEq

/-- Dynamic dispatch of `prop.render(value)`.  Well-typed
descriptor/value combinations delegate to the subclass renders above; the
catch-all models the dynamically-typed Python fallback through `str` (an
ill-typed combination either str-coerces or raises a `TypeError` in
Python; no claim depends on those branches). -/
def PropKind.render : PropKind → Value → String
  | .bool label eq, .vbool b => BoolProp.render label eq (some b)
  | .int label eq, .vint n => IntProp.render label eq (some n)
  | .str label eq, .vstr s => StringProp.render label eq (some s)
  | .flag label, v => FlagProp.render label (some (pyTruthy v))
  | .stringList label eq, .vlist xs => StringListProp.render label eq (some xs)
  | .tags, .vdict kvs => TagsProp.render (some kvs)
  | .enum label eq _ _, .venum s => EnumProp.render label eq (some s)
  | .enumList label eq _ _, .venums xs => EnumListProp.render label eq (some xs)
  | .columns, .vcols cs => ColumnsProp.render (some cs)
  | _, v => pyStr v

/-- A data record: an association list whose values may themselves be the
explicit `None` (`Option.none`).  `data.get(key)` yields `None` both for a
missing key and for a key explicitly bound to `None`. -/
abbrev Record := List (String × Option Value)

def Record.get (data : Record) (k : String) : Option Value :=
  match data.find? (fun kv => kv.1 == k) with
  | some kv => kv.2
  | none => none

/-- The loop body of `Props.render`: iterate the descriptors in collection
(insertion) order, skip keys whose looked-up value is `None`, and collect
each remaining descriptor's rendered fragment. -/
def renderFragments (props : List (String × PropKind)) (data : Record) :
    List String :=
  match props with
  | [] => []
  | (key, p) :: rest =>
    match Record.get data key with
    | none => renderFragments rest data
    | some v => p.render v :: renderFragments rest data

/-- An ordered mapping from clause keyword-argument name to descriptor
(Python `**props` keeps insertion order), plus the optional collection
name; the optional start token only feeds the parse direction. -/
structure Props where
  name : Option String
  props : List (String × PropKind)

def Props.render (ps : Props) (data : Record) : String :=
  tidy_sql (renderFragments ps.props data)

/-! ## Well-formedness of labels and tokens

The general theorems below quantify over descriptors; they assume that a
label is a plain keyword (a non-empty run of token characters whose
upper-cased form is again such a run and case-folds back to the same
lower-cased word — true of every ASCII keyword) and that a value token is
a non-empty run of token characters. -/

def GoodTok (t : String) : Prop :=
  t.data ≠ [] ∧ t.data.all tokChar = true

def GoodLabel (label : String) : Prop :=
  label.data ≠ [] ∧ label.data.all tokChar = true ∧
  (strUpper label).data.all tokChar = true ∧
  strLower (strUpper label) = strLower label

instance (t : String) : Decidable (GoodTok t) := by
  unfold GoodTok; infer_instance

instance (label : String) : Decidable (GoodLabel label) := by
  unfold GoodLabel; infer_instance

/-- Does `t` match some member of `vs` case-insensitively? -/
def caselessMem (t : String) (vs : List String) : Bool :=
  vs.any (fun v => caselessEq v t)

/-- A one-clause input text `LABEL = t` (or `LABEL t` without equals). -/
def mkClause (label : String) (eq : Bool) (t : String) : String :=
  if eq then label ++ " = " ++ t else label ++ " " ++ t

/-! ## Basic facts about the model's strings and tokenizer -/

theorem data_append (a b : String) : (a ++ b).data = a.data ++ b.data := rfl

theorem strExt : ∀ {a b : String}, a.data = b.data → a = b := by
  intro a b h
  cases a
  cases b
  exact congrArg String.mk (by simpa using h)

theorem beq_empty_false {s : String} (h : s.data ≠ []) : (s == "") = false := by
  apply beq_eq_false_iff_ne.mpr
  intro he
  subst he
  exact h rfl

theorem strUpper_data (s : String) :
    (strUpper s).data = s.data.map Char.toUpper := rfl

theorem strUpper_ne {s : String} (h : s.data ≠ []) :
    (strUpper s).data ≠ [] := by
  simpa [strUpper_data] using h

theorem caselessEq_refl (a : String) : caselessEq a a = true := by
  simp [caselessEq]

theorem caselessEq_upper {label : String}
    (h : strLower (strUpper label) = strLower label) :
    caselessEq label (strUpper label) = true := by
  simp [caselessEq, h]

theorem tokA_word (w : List Char) : ∀ (cs acc : List Char),
    w.all tokChar = true →
    tokA (w ++ cs) acc = tokA cs (w.reverse ++ acc) := by
  induction w with
  | nil => intro cs acc _; simp
  | cons c w ih =>
    intro cs acc h
    simp only [List.all_cons, Bool.and_eq_true] at h
    have hc : isWs c = false ∧ isSep c = false := by
      have := h.1
      simp only [tokChar, Bool.and_eq_true, Bool.not_eq_true'] at this
      exact this
    simp [tokA, hc.1, hc.2, ih cs (c :: acc) h.2, List.reverse_cons,
      List.append_assoc]

theorem tokA_only_word (u : String) (h : u.data.all tokChar = true)
    (hne : u.data ≠ []) : tokA u.data [] = [u] := by
  have h2 := tokA_word u.data [] [] h
  rw [List.append_nil] at h2
  rw [h2]
  have hie : u.data.reverse.isEmpty = false := by
    cases h3 : u.data.reverse with
    | nil => exact absurd (by simpa using congrArg List.reverse h3) hne
    | cons _ _ => rfl
  simp [tokA, hie]

theorem tokenize_word (u : String) (h : u.data.all tokChar = true)
    (hne : u.data ≠ []) : tokenize u = [u] :=
  tokA_only_word u h hne

theorem tokA_token_space (u : String) (cs : List Char)
    (h : u.data.all tokChar = true) (hne : u.data ≠ []) :
    tokA (u.data ++ ' ' :: cs) [] = u :: tokA cs [] := by
  rw [tokA_word u.data (' ' :: cs) [] h]
  have hie : u.data.reverse.isEmpty = false := by
    cases h3 : u.data.reverse with
    | nil => exact absurd (by simpa using congrArg List.reverse h3) hne
    | cons _ _ => rfl
  have hws : isWs ' ' = true := by decide
  simp [tokA, hie, hws]

theorem tokA_eq_space (cs : List Char) :
    tokA ('=' :: ' ' :: cs) [] = "=" :: tokA cs [] := by
  have h1 : isWs '=' = false := by decide
  have h2 : isSep '=' = true := by decide
  have h3 : isWs ' ' = true := by decide
  have h4 : (⟨['=']⟩ : String) = "=" := by decide
  simp [tokA, h1, h2, h3, h4]

theorem tokenize_two (a t : String)
    (ha1 : a.data.all tokChar = true) (ha2 : a.data ≠ [])
    (ht1 : t.data.all tokChar = true) (ht2 : t.data ≠ []) :
    tokenize (a ++ " " ++ t) = [a, t] := by
  unfold tokenize
  have hd : (a ++ " " ++ t).data = a.data ++ ' ' :: t.data := by
    simp [data_append, List.append_assoc]
  rw [hd, tokA_token_space a t.data ha1 ha2, tokA_only_word t ht1 ht2]

theorem tokenize_three (a t : String)
    (ha1 : a.data.all tokChar = true) (ha2 : a.data ≠ [])
    (ht1 : t.data.all tokChar = true) (ht2 : t.data ≠ []) :
    tokenize (a ++ " = " ++ t) = [a, "=", t] := by
  unfold tokenize
  have hd : (a ++ " = " ++ t).data = a.data ++ ' ' :: '=' :: ' ' :: t.data := by
    simp [data_append, List.append_assoc]
  rw [hd, tokA_token_space a ('=' :: ' ' :: t.data) ha1 ha2, tokA_eq_space,
    tokA_only_word t ht1 ht2]

/-! ## Facts about the grammar matchers -/

theorem isSepTok_of_good {t : String} (h : t.data.all tokChar = true) :
    isSepTok t = false := by
  unfold isSepTok
  have h1 : (t == "(") = false := by
    apply beq_eq_false_iff_ne.mpr
    intro he; subst he; revert h; decide
  have h2 : (t == ")") = false := by
    apply beq_eq_false_iff_ne.mpr
    intro he; subst he; revert h; decide
  have h3 : (t == ",") = false := by
    apply beq_eq_false_iff_ne.mpr
    intro he; subst he; revert h; decide
  have h4 : (t == "=") = false := by
    apply beq_eq_false_iff_ne.mpr
    intro he; subst he; revert h; decide
  simp [h1, h2, h3, h4]

theorem listHas_of_mem {a : String} {l : List String} (h : a ∈ l) :
    listHas l a = true := by
  simp [listHas, List.any_eq_true]
  exact h

theorem listHas_false_of_not_caseless {t : String} {vs : List String}
    (h : caselessMem t vs = false) : listHas vs t = false := by
  cases hl : listHas vs t with
  | false => rfl
  | true =>
    exfalso
    have hmem : t ∈ vs := by simpa [listHas, List.any_eq_true] using hl
    have hcm : caselessMem t vs = true := by
      simp [caselessMem, List.any_eq_true]
      exact ⟨t, hmem, caselessEq_refl t⟩
    rw [hcm] at h
    exact Bool.noConfusion h

theorem matchHead_simple (label t0 : String) (eq pr : Bool) (rest : List String)
    (hl : label.data.all tokChar = true) (hlne : label.data ≠ [])
    (hcl : caselessEq label t0 = true) :
    matchHead ⟨some label, eq, pr, []⟩ (t0 :: rest) =
      (if eq then matchEq rest else some rest) := by
  unfold matchHead matchConsume
  simp [splitWords, tokenize_word label hl hlne, matchKeywords, hcl]

theorem fkm_char (valid : List String) (t : String) (tl : List String)
    (hv : ∀ u ∈ valid, GoodTok u) :
    firstKeywordMatch valid (t :: tl) =
      (match valid.find? (fun u => caselessEq u t) with
       | some u => some (u, tl)
       | none => none) := by
  induction valid with
  | nil => rfl
  | cons u vs ih =>
    have hu := hv u (List.mem_cons_self u vs)
    have hsw : splitWords u = [u] := tokenize_word u hu.2 hu.1
    have ih2 := ih (fun x hx => hv x (List.mem_cons_of_mem u hx))
    cases hc : caselessEq u t with
    | true => simp [firstKeywordMatch, hsw, matchKeywords, hc, List.find?]
    | false => simp [firstKeywordMatch, hsw, matchKeywords, hc, List.find?, ih2]

theorem enumValue_none_tok (valid : List String) (t : String) (tl : List String)
    (hv : ∀ u ∈ valid, GoodTok u) (hmem : caselessMem t valid = false)
    (ht : GoodTok t) :
    enumValue valid (t :: tl) = some (t, tl) := by
  have hfind : valid.find? (fun u => caselessEq u t) = none := by
    rw [List.find?_eq_none]
    intro x hx
    have : caselessEq x t = false := by
      cases hc : caselessEq x t with
      | false => rfl
      | true =>
        exfalso
        have hcm : caselessMem t valid = true := by
          simp [caselessMem, List.any_eq_true]
          exact ⟨x, hx, hc⟩
        rw [hcm] at hmem
        exact Bool.noConfusion hmem
    simp [this]
  simp [enumValue, fkm_char valid t tl hv, hfind, anyTok, isSepTok_of_good ht.2]

/-! ## Normal forms of the rendered texts -/

theorem tidy_sql3_eq (a t : String) (ha : (a == "") = false)
    (ht : (t == "") = false) : tidy_sql [a, "=", t] = a ++ " = " ++ t := by
  have he : (("=" : String) == "") = false := by decide
  apply strExt
  simp [tidy_sql, List.filter, ha, ht, he, joinSep, data_append,
    List.append_assoc]

theorem tidy_sql2_eq (a t : String) (ha : (a == "") = false)
    (ht : (t == "") = false) : tidy_sql [a, "", t] = a ++ " " ++ t := by
  apply strExt
  simp [tidy_sql, List.filter, ha, ht, joinSep, data_append]

theorem tokenize_tidysql (a t : String) (eq : Bool)
    (ha1 : a.data.all tokChar = true) (ha2 : a.data ≠ [])
    (ht1 : t.data.all tokChar = true) (ht2 : t.data ≠ []) :
    tokenize (tidy_sql [a, eqSym eq, t]) =
      a :: (if eq then ["=", t] else [t]) := by
  cases eq with
  | true =>
    rw [show eqSym true = "=" from rfl,
      tidy_sql3_eq a t (beq_empty_false ha2) (beq_empty_false ht2),
      tokenize_three a t ha1 ha2 ht1 ht2]
    rfl
  | false =>
    rw [show eqSym false = "" from rfl,
      tidy_sql2_eq a t (beq_empty_false ha2) (beq_empty_false ht2),
      tokenize_two a t ha1 ha2 ht1 ht2]
    rfl

theorem tokenize_mkClause (a t : String) (eq : Bool)
    (ha1 : a.data.all tokChar = true) (ha2 : a.data ≠ [])
    (ht1 : t.data.all tokChar = true) (ht2 : t.data ≠ []) :
    tokenize (mkClause a eq t) = a :: (if eq then ["=", t] else [t]) := by
  cases eq with
  | true =>
    rw [show mkClause a true t = a ++ " = " ++ t from rfl,
      tokenize_three a t ha1 ha2 ht1 ht2]
    rfl
  | false =>
    rw [show mkClause a false t = a ++ " " ++ t from rfl,
      tokenize_two a t ha1 ha2 ht1 ht2]
    rfl

/-! ## Stability of a completed grammar match under trailing tokens -/

theorem matchKeywords_append {ws ts ts2 : List String} (rest : List String)
    (h : matchKeywords ws ts = some ts2) :
    matchKeywords ws (ts ++ rest) = some (ts2 ++ rest) := by
  induction ws generalizing ts with
  | nil =>
    simp [matchKeywords] at h
    subst h
    rfl
  | cons w ws ih =>
    cases ts with
    | nil => simp [matchKeywords] at h
    | cons t ts =>
      cases hc : caselessEq w t with
      | true =>
        rw [List.cons_append]
        simp only [matchKeywords, hc, if_true] at h ⊢
        exact ih h
      | false => simp [matchKeywords, hc] at h

theorem matchEq_append {ts ts2 : List String} (rest : List String)
    (h : matchEq ts = some ts2) :
    matchEq (ts ++ rest) = some (ts2 ++ rest) := by
  cases ts with
  | nil => simp [matchEq] at h
  | cons t tl =>
    cases he : t == "=" with
    | true =>
      simp [matchEq, he] at h
      subst h
      simp [matchEq, he]
    | false => simp [matchEq, he] at h

theorem matchHead_eq_form (label : String) (eq pr : Bool) (ts : List String) :
    matchHead ⟨some label, eq, pr, []⟩ ts =
      (match matchKeywords (splitWords label) ts with
       | none => none
       | some ts2 => if eq then matchEq ts2 else some ts2) := by
  unfold matchHead matchConsume
  rfl

theorem matchHead_append {label : String} {eq : Bool} {pr : Bool}
    {ts ts2 : List String} (rest : List String)
    (h : matchHead ⟨some label, eq, pr, []⟩ ts = some ts2) :
    matchHead ⟨some label, eq, pr, []⟩ (ts ++ rest) = some (ts2 ++ rest) := by
  rw [matchHead_eq_form] at h ⊢
  cases hk : matchKeywords (splitWords label) ts with
  | none => rw [hk] at h; simp at h
  | some mid =>
    rw [hk] at h
    rw [matchKeywords_append rest hk]
    cases eq with
    | false =>
      simp at h ⊢
      exact h
    | true =>
      simp only [if_true] at h ⊢
      exact matchEq_append rest h

theorem anyTok_append {ts ts2 : List String} {t : String} (rest : List String)
    (h : anyTok ts = some (t, ts2)) :
    anyTok (ts ++ rest) = some (t, ts2 ++ rest) := by
  cases ts with
  | nil => simp [anyTok] at h
  | cons t0 tl =>
    cases hs : isSepTok t0 with
    | true => simp [anyTok, hs] at h
    | false =>
      simp [anyTok, hs] at h
      obtain ⟨rfl, rfl⟩ := h
      simp [anyTok, hs]

/-! ## Odd tag sequences -/

theorem tags_typecheck_odd : ∀ ts : List String, ts.length % 2 = 1 →
    TagsProp.typecheck ts = .error .stopIteration
  | [], h => by simp at h
  | [_], _ => rfl
  | a :: b :: rest, h => by
    have hr : rest.length % 2 = 1 := by
      simp [List.length_cons] at h
      omega
    simp [TagsProp.typecheck, tags_typecheck_odd rest hr]

theorem fkm_nil_eq_none (valid : List String) (hv : ∀ u ∈ valid, GoodTok u) :
    firstKeywordMatch valid [] = none := by
  induction valid with
  | nil => rfl
  | cons u vs ih =>
    have hu := hv u (List.mem_cons_self u vs)
    have hsw : splitWords u = [u] := tokenize_word u hu.2 hu.1
    simp [firstKeywordMatch, hsw, matchKeywords,
      ih (fun x hx => hv x (List.mem_cons_of_mem u hx))]

theorem enumValue_append {valid ts tl rest : List String} {t : String}
    (hv : ∀ u ∈ valid, GoodTok u)
    (h : enumValue valid ts = some (t, tl)) :
    enumValue valid (ts ++ rest) = some (t, tl ++ rest) := by
  cases ts with
  | nil =>
    exfalso
    have h1 : enumValue valid [] = none := by
      simp [enumValue, fkm_nil_eq_none valid hv, anyTok]
    rw [h1] at h
    exact Option.noConfusion h
  | cons t0 tl0 =>
    rw [List.cons_append]
    unfold enumValue at h ⊢
    rw [fkm_char valid t0 tl0 hv] at h
    rw [fkm_char valid t0 (tl0 ++ rest) hv]
    cases hf : valid.find? (fun u => caselessEq u t0) with
    | some u =>
      rw [hf] at h
      simp at h
      obtain ⟨rfl, rfl⟩ := h
      rfl
    | none =>
      rw [hf] at h
      exact anyTok_append rest h

/-! # Claims -/

/-- Claim C1 (amended): every property-descriptor kind that implements
`render` returns an empty text fragment for an absent (`None`) domain
value — except the column-list descriptor, whose render of `None` is the
literal text `()`, not an empty fragment. -/
theorem c1_render_absent_amended : ∀ (label : String) (eq : Bool),
    BoolProp.render label eq none = "" ∧
    IntProp.render label eq none = "" ∧
    StringProp.render label eq none = "" ∧
    FlagProp.render label none = "" ∧
    IdentifierProp.render label eq none = "" ∧
    StringListProp.render label eq none = "" ∧
    TagsProp.render none = "" ∧
    EnumProp.render label eq none = "" ∧
    EnumListProp.render label eq none = "" ∧
    EnumFlagProp.render none = "" ∧
    QueryProp.render label none = "" ∧
    ExpressionProp.render label none = "" ∧
    TimeTravelProp.render label none = "" ∧
    AlertConditionProp.render none = "" ∧
    ColumnsProp.render none = "()" :=
  fun _ _ =>
    ⟨rfl, rfl, rfl, rfl, rfl, rfl, rfl, rfl, rfl, rfl, rfl, rfl, rfl, rfl, rfl⟩

/-- Claim C1 counterexample: the column-list descriptor's render of the
absent value is `()`, which is not an empty fragment. -/
theorem c1_counterexample :
    ColumnsProp.render none = "()" ∧ ColumnsProp.render none ≠ "" :=
  ⟨rfl, by decide⟩

/-- Claim C2 (amended): collection render visits descriptors in the
collection's declared (insertion) order and produces exactly one fragment
per key populated with a non-None value, in that order, independent of the
record's own key order; those fragments need not all be non-empty (a flag
key populated with False renders an empty fragment), so the non-empty
fragment count can be smaller than the populated-key count. -/
theorem c2_collection_render_amended :
    ∀ (props : List (String × PropKind)) (data data2 : Record),
      (∀ k, Record.get data k = Record.get data2 k) →
      renderFragments props data = renderFragments props data2 ∧
      (renderFragments props data).length =
        (props.filter (fun kp => (Record.get data kp.1).isSome)).length := by
  intro props data data2 hext
  constructor
  · induction props with
    | nil => rfl
    | cons kp rest ih =>
      obtain ⟨k, p⟩ := kp
      simp only [renderFragments]
      rw [hext k]
      cases Record.get data2 k <;> simp [ih]
  · induction props with
    | nil => rfl
    | cons kp rest ih =>
      obtain ⟨k, p⟩ := kp
      simp only [renderFragments, List.filter]
      cases hg : Record.get data k <;> simp [hg, ih]

/-- Claim C2 counterexample: a record populating its single flag key with
the non-None value False yields one fragment but zero non-empty fragments,
refuting "exactly N non-empty fragments". -/
theorem c2_counterexample :
    renderFragments [("copy_grants", PropKind.flag "COPY GRANTS")]
        [("copy_grants", some (Value.vbool false))] = [""] ∧
    (([""] : List String).filter (fun s => !(s == ""))).length = 0 ∧
    Props.render ⟨none, [("copy_grants", PropKind.flag "COPY GRANTS")]⟩
        [("copy_grants", some (Value.vbool false))] = "" :=
  ⟨rfl, rfl, rfl⟩

/-- Claim C2 witness: the amended collection-render theorem applied to a
two-descriptor collection and the same record given in two different key
orders. -/
theorem c2_witness :
    renderFragments
        [("secure", PropKind.bool "SECURE" true),
         ("copy_grants", PropKind.flag "COPY GRANTS")]
        [("secure", some (Value.vbool true)), ("copy_grants", none)] =
      renderFragments
        [("secure", PropKind.bool "SECURE" true),
         ("copy_grants", PropKind.flag "COPY GRANTS")]
        [("copy_grants", none), ("secure", some (Value.vbool true))] ∧
    (renderFragments
        [("secure", PropKind.bool "SECURE" true),
         ("copy_grants", PropKind.flag "COPY GRANTS")]
        [("secure", some (Value.vbool true)), ("copy_grants", none)]).length =
      ([("secure", PropKind.bool "SECURE" true),
        ("copy_grants", PropKind.flag "COPY GRANTS")].filter
        (fun kp =>
          (Record.get [("secure", some (Value.vbool true)), ("copy_grants", none)]
            kp.1).isSome)).length :=
  c2_collection_render_amended _ _ _ (by
    intro k
    cases h1 : ("secure" == k) with
    | true =>
      have hk : "secure" = k := eq_of_beq h1
      subst hk
      rfl
    | false =>
      cases h2 : ("copy_grants" == k) with
      | true =>
        have hk : "copy_grants" = k := eq_of_beq h2
        subst hk
        rfl
      | false => simp [Record.get, List.find?, h1, h2])

/-- Claim C3 (amended): rendering the tag mapping env=prod, team=data
yields `TAG (env = 'prod', team = 'data')`, and an odd-length alternating
token sequence fails typechecking (uncaught StopIteration) rather than
silently dropping the trailing key; parsing the rendered text back pairs
keys with their values in order, but the parsed values keep their single
quotes (the strip call is commented out in the source), so the result is
the quoted-value mapping, not the original one. -/
theorem c3_tagmap_amended :
    TagsProp.render (some [("env", "prod"), ("team", "data")]) =
      "TAG (env = 'prod', team = 'data')" ∧
    TagsProp.parse "TAG (env = 'prod', team = 'data')" =
      .ok [("env", "'prod'"), ("team", "'data'")] ∧
    ∀ ts : List String, ts.length % 2 = 1 →
      TagsProp.typecheck ts = .error .stopIteration :=
  ⟨rfl, rfl, tags_typecheck_odd⟩

/-- Claim C3 counterexample: parsing the rendered tag text back yields the
mapping with single-quoted values, which differs from the original
mapping. -/
theorem c3_counterexample :
    TagsProp.parse (TagsProp.render (some [("env", "prod"), ("team", "data")])) =
      .ok [("env", "'prod'"), ("team", "'data'")] ∧
    ([("env", "'prod'"), ("team", "'data'")] : List (String × String)) ≠
      [("env", "prod"), ("team", "data")] :=
  ⟨rfl, by decide⟩

/-- Claim C3 witness: the odd-length part of the amended theorem applied
to a concrete one-token sequence. -/
theorem c3_witness :
    TagsProp.typecheck ["orphan_key"] = .error .stopIteration :=
  c3_tagmap_amended.2.2 ["orphan_key"] (by decide)

/-- Claim C7: for the string-list descriptor with label NAMES (value
grammar wrapped in parentheses, matching the spec's render shape),
rendering ["a","b","c"] yields `NAMES = (a, b, c)`, and parsing that text
back yields ["a","b","c"]. -/
theorem c7_stringlist_roundtrip :
    StringListProp.render "NAMES" true (some ["a", "b", "c"]) =
      "NAMES = (a, b, c)" ∧
    StringListProp.parse "NAMES" true true "NAMES = (a, b, c)" =
      .ok ["a", "b", "c"] :=
  ⟨rfl, rfl⟩

/-- Claim C8 (code bug): `EnumListProp.render` interpolates the Python
list object itself into its f-string and does not consult the paren flag
(which the base constructor never stores), so a two-member list renders as
`FORMATS = ([<Enum.A: 'A'>, <Enum.B: 'B'>])` — and with the equals flag
off as `FORMATS ([...])` — never as the claimed `FORMATS (A, B)` or
`FORMATS A, B`. -/
theorem c8_enumlist_render_bug :
    EnumListProp.render "FORMATS" true (some ["A", "B"]) =
      "FORMATS = ([<Enum.A: 'A'>, <Enum.B: 'B'>])" ∧
    EnumListProp.render "FORMATS" false (some ["A", "B"]) =
      "FORMATS ([<Enum.A: 'A'>, <Enum.B: 'B'>])" ∧
    EnumListProp.render "FORMATS" false (some ["A", "B"]) ≠ "FORMATS A, B" ∧
    EnumListProp.render "FORMATS" false (some ["A", "B"]) ≠ "FORMATS (A, B)" :=
  ⟨rfl, rfl, by decide, by decide⟩

/-- Claim C9 counterexample: for an unparenthesized enum-list descriptor
the clause `MODES = A` parses, but appending the trailing text `, bogus`
makes the greedy delimited-list grammar consume it and the parse then
fails with an invalid-value error. -/
theorem c9_counterexample :
    EnumListProp.parse "MODES" true false ⟨["A", "B"]⟩ ["A", "B"]
        "MODES = A" = .ok ["A"] ∧
    EnumListProp.parse "MODES" true false ⟨["A", "B"]⟩ ["A", "B"]
        ("MODES = A" ++ ", bogus") = .error (.invalidValue "bogus" none) :=
  ⟨rfl, rfl⟩

/-- Claim C10: collection render treats exactly None as absent — a key
bound to any non-None value is passed to that descriptor's render rather
than skipped; in particular a flag key explicitly set to False yields the
flag descriptor's empty fragment in the fragment list instead of being
skipped. -/
theorem c10_non_none_rendered :
    (∀ (key : String) (p : PropKind) (rest : List (String × PropKind))
       (data : Record) (v : Value),
       Record.get data key = some v →
       renderFragments ((key, p) :: rest) data =
         p.render v :: renderFragments rest data) ∧
    (∀ label : String, PropKind.render (.flag label) (.vbool false) = "") ∧
    renderFragments [("auto_refresh", PropKind.flag "AUTO_REFRESH")]
        [("auto_refresh", some (Value.vbool false))] = [""] := by
  refine ⟨?_, ?_, rfl⟩
  · intro key p rest data v h
    simp [renderFragments, h]
  · intro label
    rfl

/-- Claim C10 witness: the first part of the claim theorem applied to a
concrete one-descriptor collection whose key holds the non-None value
False. -/
theorem c10_witness :
    renderFragments [("change_tracking", PropKind.bool "CHANGE_TRACKING" true)]
        [("change_tracking", some (Value.vbool false))] =
      [PropKind.render (PropKind.bool "CHANGE_TRACKING" true) (Value.vbool false)] :=
  c10_non_none_rendered.1 "change_tracking"
    (PropKind.bool "CHANGE_TRACKING" true) []
    [("change_tracking", some (Value.vbool false))] (Value.vbool false) rfl

/-- Claim C5: for every boolean descriptor (any well-formed keyword label,
with or without the equals sign) and every boolean value, rendering the
value and parsing the rendered text back through the descriptor yields the
value again. -/
theorem c5_bool_roundtrip :
    ∀ (label : String) (eq : Bool) (v : Bool),
      GoodLabel label →
      BoolProp.parse label eq (BoolProp.render label eq (some v)) = .ok v := by
  intro label eq v hl
  obtain ⟨hne, htok, hutok, hlow⟩ := hl
  have hune : (strUpper label).data ≠ [] := strUpper_ne hne
  have hcl : caselessEq label (strUpper label) = true := caselessEq_upper hlow
  cases v with
  | true =>
    have ht1 : (strUpper (pyStrBool true)).data.all tokChar = true := by decide
    have ht2 : (strUpper (pyStrBool true)).data ≠ [] := by decide
    unfold BoolProp.parse BoolProp.render
    rw [tokenize_tidysql (strUpper label) (strUpper (pyStrBool true)) eq
      hutok hune ht1 ht2]
    cases eq with
    | true =>
      show BoolProp.parseTokens label true
        (strUpper label :: ["=", strUpper (pyStrBool true)]) = .ok true
      unfold BoolProp.parseTokens
      rw [matchHead_simple label (strUpper label) true false
        ["=", strUpper (pyStrBool true)] htok hne hcl]
      rfl
    | false =>
      show BoolProp.parseTokens label false
        (strUpper label :: [strUpper (pyStrBool true)]) = .ok true
      unfold BoolProp.parseTokens
      rw [matchHead_simple label (strUpper label) false false
        [strUpper (pyStrBool true)] htok hne hcl]
      rfl
  | false =>
    have ht1 : (strUpper (pyStrBool false)).data.all tokChar = true := by decide
    have ht2 : (strUpper (pyStrBool false)).data ≠ [] := by decide
    unfold BoolProp.parse BoolProp.render
    rw [tokenize_tidysql (strUpper label) (strUpper (pyStrBool false)) eq
      hutok hune ht1 ht2]
    cases eq with
    | true =>
      show BoolProp.parseTokens label true
        (strUpper label :: ["=", strUpper (pyStrBool false)]) = .ok false
      unfold BoolProp.parseTokens
      rw [matchHead_simple label (strUpper label) true false
        ["=", strUpper (pyStrBool false)] htok hne hcl]
      rfl
    | false =>
      show BoolProp.parseTokens label false
        (strUpper label :: [strUpper (pyStrBool false)]) = .ok false
      unfold BoolProp.parseTokens
      rw [matchHead_simple label (strUpper label) false false
        [strUpper (pyStrBool false)] htok hne hcl]
      rfl

/-- Claim C5 witness: the round-trip theorem applied to the descriptor
with label SECURE, equals sign on, and the value true. -/
theorem c5_witness :
    GoodLabel "SECURE" ∧
    BoolProp.parse "SECURE" true (BoolProp.render "SECURE" true (some true)) =
      .ok true :=
  ⟨by decide, c5_bool_roundtrip "SECURE" true true (by decide)⟩

/-- Claim C6: the string descriptor's render always single-quotes the
value (shown in the equals form), while parse captures the quoted token
verbatim without stripping the quotes, so parsing the rendered text yields
the quoted string, which always differs from the original value — the
round-trip is not symmetric for quoted input. -/
theorem c6_string_asymmetry :
    ∀ (label : String) (eq : Bool) (v : String),
      GoodLabel label → v.data.all tokChar = true →
      StringProp.parse label eq (StringProp.render label eq (some v)) =
        .ok ("'" ++ v ++ "'") ∧
      ("'" ++ v ++ "'" : String) ≠ v ∧
      StringProp.render label true (some v) =
        strUpper label ++ " = " ++ ("'" ++ v ++ "'") := by
  intro label eq v hl hv
  obtain ⟨hne, htok, hutok, hlow⟩ := hl
  have hune : (strUpper label).data ≠ [] := strUpper_ne hne
  have hcl : caselessEq label (strUpper label) = true := caselessEq_upper hlow
  have hqdata : ("'" ++ v ++ "'").data = '\'' :: (v.data ++ ['\'']) := by
    simp [data_append]
  have hq1 : ("'" ++ v ++ "'").data.all tokChar = true := by
    rw [hqdata]
    simp [List.all_append, hv]
    decide
  have hq2 : ("'" ++ v ++ "'").data ≠ [] := by
    rw [hqdata]
    simp
  refine ⟨?_, ?_, ?_⟩
  · unfold StringProp.parse StringProp.render
    rw [tokenize_tidysql (strUpper label) ("'" ++ v ++ "'") eq hutok hune hq1 hq2]
    have hsep : isSepTok ("'" ++ v ++ "'") = false := isSepTok_of_good hq1
    have heqeq : (("=" : String) == "=") = true := by decide
    cases eq with
    | true =>
      show StringProp.parseTokens label true
        (strUpper label :: ["=", "'" ++ v ++ "'"]) = .ok ("'" ++ v ++ "'")
      unfold StringProp.parseTokens
      rw [matchHead_simple label (strUpper label) true false
        ["=", "'" ++ v ++ "'"] htok hne hcl]
      simp [matchEq, heqeq, anyTok, hsep, StringProp.typecheck]
    | false =>
      show StringProp.parseTokens label false
        (strUpper label :: ["'" ++ v ++ "'"]) = .ok ("'" ++ v ++ "'")
      unfold StringProp.parseTokens
      rw [matchHead_simple label (strUpper label) false false
        ["'" ++ v ++ "'"] htok hne hcl]
      simp [anyTok, hsep, StringProp.typecheck]
  · intro hcontra
    have hlen : ("'" ++ v ++ "'").data.length = v.data.length :=
      congrArg (fun s : String => s.data.length) hcontra
    rw [hqdata] at hlen
    simp only [List.length_cons, List.length_append] at hlen
    omega
  · unfold StringProp.render
    rw [show eqSym true = "=" from rfl]
    exact tidy_sql3_eq (strUpper label) ("'" ++ v ++ "'")
      (beq_empty_false hune) (beq_empty_false hq2)

/-- Claim C6 witness: the asymmetry theorem applied to the descriptor with
label COMMENT and the value hello — the round-trip returns the quoted
string, not the original. -/
theorem c6_witness :
    GoodLabel "COMMENT" ∧ ("hello" : String).data.all tokChar = true ∧
    StringProp.parse "COMMENT" true
        (StringProp.render "COMMENT" true (some "hello")) = .ok "'hello'" ∧
    ("'hello'" : String) ≠ "hello" :=
  ⟨by decide, by decide,
   (c6_string_asymmetry "COMMENT" true "hello" (by decide) (by decide)).1,
   (c6_string_asymmetry "COMMENT" true "hello" (by decide) (by decide)).2.1⟩

/-- Claim C4 (amended): for an enum descriptor with allowed set S over a
well-formed label and single-word members, parse of `LABEL = t` succeeds
with a member of S whenever the token t equals a member case-insensitively;
for a token matching no member of S it fails with an invalid-value error
that always carries the offending raw value, but carries the full allowed
set only when the raw token is exactly a member of the underlying
enumeration type outside S — for a token the enumeration does not
recognize at all, the error carries just the raw value, not the allowed
set. -/
theorem c4_enum_parse_amended :
    ∀ (E : EnumType) (valid : List String) (label : String) (eq : Bool)
      (t : String),
      GoodLabel label → GoodTok t →
      (∀ u ∈ valid, GoodTok u) →
      (∀ u ∈ valid, listHas E.members u = true) →
      ((caselessMem t valid = true →
         ∃ v, v ∈ valid ∧ caselessEq v t = true ∧
           EnumProp.parse label eq E valid (mkClause label eq t) = .ok v) ∧
       (caselessMem t valid = false →
         EnumProp.parse label eq E valid (mkClause label eq t) =
           (if listHas E.members t then .error (.invalidValue t (some valid))
            else .error (.invalidValue t none)))) := by
  intro E valid label eq t hl ht hval hsub
  obtain ⟨hne, htok, hutok, hlow⟩ := hl
  have hstep : EnumProp.parse label eq E valid (mkClause label eq t) =
      EnumProp.parseTokens label eq E valid
        (label :: (if eq then ["=", t] else [t])) := by
    unfold EnumProp.parse
    rw [tokenize_mkClause label t eq htok hne ht.2 ht.1]
  have hred : EnumProp.parseTokens label eq E valid
      (label :: (if eq then ["=", t] else [t])) =
      (match enumValue valid [t] with
       | none => .error .grammarMismatch
       | some (tok, _) => EnumProp.typecheck E valid tok) := by
    cases eq with
    | true =>
      show EnumProp.parseTokens label true E valid (label :: ["=", t]) = _
      unfold EnumProp.parseTokens
      rw [matchHead_simple label label true false ["=", t] htok hne
        (caselessEq_refl label)]
      rfl
    | false =>
      show EnumProp.parseTokens label false E valid (label :: [t]) = _
      unfold EnumProp.parseTokens
      rw [matchHead_simple label label false false [t] htok hne
        (caselessEq_refl label)]
      rfl
  constructor
  · intro hcm
    have hex : ∃ x ∈ valid, caselessEq x t = true := by
      simpa [caselessMem, List.any_eq_true] using hcm
    have hsome : (valid.find? (fun u => caselessEq u t)).isSome = true := by
      rw [List.find?_isSome]
      exact hex
    obtain ⟨u, hu⟩ := Option.isSome_iff_exists.mp hsome
    have humem : u ∈ valid := List.mem_of_find?_eq_some hu
    have hueq : caselessEq u t = true := by simpa using List.find?_some hu
    refine ⟨u, humem, hueq, ?_⟩
    rw [hstep, hred]
    have hev : enumValue valid [t] = some (u, []) := by
      simp [enumValue, fkm_char valid t [] hval, hu]
    rw [hev]
    simp [EnumProp.typecheck, enumCtor, hsub u humem, listHas_of_mem humem]
  · intro hcm
    rw [hstep, hred]
    have hev : enumValue valid [t] = some (t, []) :=
      enumValue_none_tok valid t [] hval hcm ht
    rw [hev]
    unfold EnumProp.typecheck enumCtor
    cases hmem : listHas E.members t with
    | true => simp [hmem, listHas_false_of_not_caseless hcm]
    | false => simp [hmem]

/-- Claim C4 counterexample: with the allowed set covering the whole
enumeration, parsing a token the enumeration does not recognize fails with
an error that carries only the raw value — not the full set of allowed
members, refuting that part of the claim. -/
theorem c4_counterexample :
    EnumProp.parse "TYPE" true ⟨["CSV", "JSON"]⟩ ["CSV", "JSON"]
        "TYPE = BOGUS" = .error (.invalidValue "BOGUS" none) ∧
    PErr.invalidValue "BOGUS" none ≠
      PErr.invalidValue "BOGUS" (some ["CSV", "JSON"]) :=
  ⟨rfl, by decide⟩

/-- Claim C4 witness: the amended theorem applied to the descriptor with
label TYPE, allowed set CSV/JSON inside the CSV/JSON/PARQUET enumeration,
and the lower-case token csv. -/
theorem c4_witness :
    GoodLabel "TYPE" ∧
    (∃ v, v ∈ ["CSV", "JSON"] ∧ caselessEq v "csv" = true ∧
      EnumProp.parse "TYPE" true ⟨["CSV", "JSON", "PARQUET"]⟩ ["CSV", "JSON"]
        (mkClause "TYPE" true "csv") = .ok v) :=
  ⟨by decide,
   (c4_enum_parse_amended ⟨["CSV", "JSON", "PARQUET"]⟩ ["CSV", "JSON"]
     "TYPE" true "csv" (by decide) (by decide) (by decide) (by decide)).1
     (by decide)⟩

/-- Claim C9 (amended): the parser never requires consuming the whole
token stream — for the single-token-value descriptors (boolean, integer,
string, and enum with single-word members) a successful parse is preserved
with the same result under arbitrary trailing tokens; descriptors whose
value grammar is an unparenthesized delimited list may instead greedily
consume the trailing text and then fail with an invalid-value error (never
with a grammar mismatch caused by the unconsumed tail). -/
theorem c9_trailing_amended :
    ∀ (label : String) (eq : Bool) (ts rest : List String),
      (∀ b, BoolProp.parseTokens label eq ts = .ok b →
        BoolProp.parseTokens label eq (ts ++ rest) = .ok b) ∧
      (∀ n, IntProp.parseTokens label eq ts = .ok n →
        IntProp.parseTokens label eq (ts ++ rest) = .ok n) ∧
      (∀ s, StringProp.parseTokens label eq ts = .ok s →
        StringProp.parseTokens label eq (ts ++ rest) = .ok s) ∧
      (∀ (E : EnumType) (valid : List String) (v : String),
        (∀ u ∈ valid, GoodTok u) →
        EnumProp.parseTokens label eq E valid ts = .ok v →
        EnumProp.parseTokens label eq E valid (ts ++ rest) = .ok v) := by
  intro label eq ts rest
  refine ⟨?_, ?_, ?_, ?_⟩
  · intro b h
    unfold BoolProp.parseTokens at h ⊢
    cases hh : matchHead ⟨some label, eq, false, []⟩ ts with
    | none => simp [hh] at h
    | some ts1 =>
      simp only [hh] at h
      cases ha : anyTok ts1 with
      | none => simp [ha] at h
      | some pr =>
        obtain ⟨t, tl⟩ := pr
        simp only [ha] at h
        simp only [matchHead_append rest hh, anyTok_append rest ha]
        exact h
  · intro n h
    unfold IntProp.parseTokens at h ⊢
    cases hh : matchHead ⟨some label, eq, false, []⟩ ts with
    | none => simp [hh] at h
    | some ts1 =>
      simp only [hh] at h
      cases ha : anyTok ts1 with
      | none => simp [ha] at h
      | some pr =>
        obtain ⟨t, tl⟩ := pr
        simp only [ha] at h
        simp only [matchHead_append rest hh, anyTok_append rest ha]
        exact h
  · intro s h
    unfold StringProp.parseTokens at h ⊢
    cases hh : matchHead ⟨some label, eq, false, []⟩ ts with
    | none => simp [hh] at h
    | some ts1 =>
      simp only [hh] at h
      cases ha : anyTok ts1 with
      | none => simp [ha] at h
      | some pr =>
        obtain ⟨t, tl⟩ := pr
        simp only [ha] at h
        simp only [matchHead_append rest hh, anyTok_append rest ha]
        exact h
  · intro E valid v hv h
    unfold EnumProp.parseTokens at h ⊢
    cases hh : matchHead ⟨some label, eq, false, []⟩ ts with
    | none => simp [hh] at h
    | some ts1 =>
      simp only [hh] at h
      cases he : enumValue valid ts1 with
      | none => simp [he] at h
      | some pr =>
        obtain ⟨t, tl⟩ := pr
        simp only [he] at h
        simp only [matchHead_append rest hh, enumValue_append hv he]
        exact h

/-- Claim C9 witness: the boolean part of the amended theorem applied to a
concrete successful parse followed by two trailing garbage tokens. -/
theorem c9_witness :
    BoolProp.parseTokens "SECURE" true
        (["SECURE", "=", "TRUE"] ++ ["garbage", "tokens"]) = .ok true :=
  (c9_trailing_amended "SECURE" true ["SECURE", "=", "TRUE"]
    ["garbage", "tokens"]).1 true rfl

end Titan
